import Mathlib

/-!
A shallow embedding of the fetch-orchestration pipeline of
src/syncedlyrics-helper.py, together with theorems about its gating logic,
its failure ledger and the idempotence of a full crawl.

Python strings are modelled as lists of characters, so that splitting file
content on the newline character (Python str.split) and substring tests
(Python in) are directly expressible.  Machinery that only performs I/O or
logging is not modelled; the two external collaborators (TinyTag metadata
extraction and the syncedlyrics search) enter as functions in an
environment record.
-/

/-- Python strings, modelled as lists of characters. -/
abbrev Str := List Char

/-- Metadata of one audio file as returned by the TinyTag collaborator
(TinyTag.get): each of title, artist and genre may be absent (Python None). -/
structure Tags where
  title : Option Str
  artist : Option Str
  genre : Option Str
  deriving DecidableEq

/-- The outcome of evaluating one file, following the taxonomy of the spec:
four skip reasons, a provider miss, and a successful fetch. -/
inductive Outcome where
  | skippedNotAudio
  | skippedKnownFailure
  | skippedBlacklisted
  | skippedHasLyrics
  | notFound
  | fetched
  deriving DecidableEq

/-- Python f-string interpolation of a possibly absent value: the value None
renders as the four characters of the word None. -/
def pyFormat : Option Str → Str
  | none => ("None".toList)
  | some s => s

/-- The FetchKey built at line 52 of the source,
keywords = f-string of title, a space, and tags.artist, and rebuilt
identically at line 64 before the ledger append. -/
def mkKeywords (tags : Tags) : Str :=
  pyFormat tags.title ++ ' ' :: pyFormat tags.artist

/-- Python str.split on the newline separator (line 20 of the source):
every occurrence of the newline character is a cut point, so a content with
n newline characters yields n + 1 segments. -/
def splitNL : Str → List Str
  | [] => [[]]
  | c :: cs =>
      if c = '\n' then [] :: splitNL cs
      else (c :: (splitNL cs).headI) :: (splitNL cs).tail

/-- The possible results of the attempt to read the ledger file in
Downloader.load_unsuccessful_fetches: the file is read whole, or opening
raises FileNotFoundError, or opening or reading raises some other I/O
error. -/
inductive ReadResult where
  | ok (contents : Str)
  | fileNotFound
  | ioError
  deriving DecidableEq

/-- Downloader.load_unsuccessful_fetches (lines 17 to 22 of the source):
the file content is split on newlines into a set; only FileNotFoundError is
caught (yielding the empty collection), so any other I/O error propagates
out of the constructor — the value none models that propagation. -/
def Downloader.load_unsuccessful_fetches : ReadResult → Option (List Str)
  | ReadResult.ok c => some (splitNL c)
  | ReadResult.fileNotFound => some []
  | ReadResult.ioError => none

/-- Downloader.write_unsuccessful_fetches_to_disk (lines 24 to 26 of the
source): the file is opened in append mode (created when absent, content
the empty string) and the track string followed by one newline character is
appended. -/
def Downloader.write_unsuccessful_fetches_to_disk (f : Option Str) (track : Str) : Option Str :=
  some (f.getD [] ++ track ++ ['\n'])

/-- The ledger set obtained from a given on-disk file state: existing
content loads via the newline split, an absent file loads as the empty
collection (the two non-raising branches of
Downloader.load_unsuccessful_fetches). -/
def loadLedgerFile : Option Str → List Str
  | none => []
  | some c => splitNL c

/-- The state threaded through evaluation: the two mutable-in-principle
Downloader fields (the in-memory failure set and the blacklist) together
with the file-system facts the evaluation reads and writes (the ledger file
content and the set of paths at which a lyrics file exists). -/
structure DState where
  unsuccessful_fetches : List Str
  blacklisted_genres : List Str
  ledgerFile : Option Str
  lrcFiles : List Str
  deriving DecidableEq

/-- The two external collaborators: metadata extraction, where none models
TinyTagException, and the syncedlyrics search, a fixed function of the
query string — the same function on both runs models the determinism
hypothesis; on a successful search the collaborator writes the lyrics file
at the given save path, which Downloader.run reflects in the state. -/
structure Env where
  meta : Str → Option Tags
  search : Str → Bool

/-- Downloader.check_for_existing (lines 28 to 32 of the source):
membership of the keywords in the in-memory set. -/
def Downloader.check_for_existing (s : DState) (keywords : Str) : Bool :=
  decide (keywords ∈ s.unsuccessful_fetches)

/-- Downloader.check_for_blacklisted_genre (lines 34 to 42 of the source):
for each blacklist entry, both sides are lowercased and Python substring
containment is tested; when the genre is absent, the attribute access on
None raises AttributeError, which the except clause turns into skipping
that entry, so an absent genre never matches. -/
def Downloader.check_for_blacklisted_genre (bl : List Str) (tags : Tags) : Bool :=
  bl.any fun genre =>
    match tags.genre with
    | none => false
    | some g => decide (genre.map Char.toLower <:+: g.map Char.toLower)

/-- filename.with_suffix of the fixed lyrics extension (line 56 of the
source): in the final path component, the extension after the last dot is
replaced (or the extension appended when the component has none or only a
leading dot). -/
def with_suffix_lrc (p : Str) : Str :=
  let r := p.reverse
  let nameR := r.takeWhile (fun c => c != '/')
  let dir := (r.dropWhile (fun c => c != '/')).reverse
  let extR := nameR.takeWhile (fun c => c != '.')
  let stem :=
    if extR.length + 1 < nameR.length then (nameR.drop (extR.length + 1)).reverse
    else nameR.reverse
  dir ++ stem ++ (".lrc".toList)

/-- Downloader.run (lines 44 to 66 of the source).  The result is the
updated state, the outcome, and whether the search collaborator was
invoked.  Note that no branch writes to the in-memory set
unsuccessful_fetches: the provider-miss branch only appends to the on-disk
file. -/
def Downloader.run (env : Env) (s : DState) (filename : Str) : DState × Outcome × Bool :=
  match env.meta filename with
  | none => (s, Outcome.skippedNotAudio, false)
  | some tags =>
      if Downloader.check_for_existing s (mkKeywords tags) then
        (s, Outcome.skippedKnownFailure, false)
      else if Downloader.check_for_blacklisted_genre s.blacklisted_genres tags then
        (s, Outcome.skippedBlacklisted, false)
      else if with_suffix_lrc filename ∈ s.lrcFiles then
        (s, Outcome.skippedHasLyrics, false)
      else if env.search (mkKeywords tags) then
        ({ s with lrcFiles := with_suffix_lrc filename :: s.lrcFiles }, Outcome.fetched, true)
      else
        ({ s with ledgerFile :=
             Downloader.write_unsuccessful_fetches_to_disk s.ledgerFile (mkKeywords tags) },
         Outcome.notFound, true)

/-- Crawler.recursive_download flattened to the list of regular files the
traversal yields, each evaluated in order by Crawler.download_lyrics with
the file-system state threaded through; the result is the final state and
the per-file outcomes. -/
def Crawler.crawl (env : Env) (s : DState) : List Str → DState × List Outcome
  | [] => (s, [])
  | p :: ps =>
      let r := Downloader.run env s p
      let rest := Crawler.crawl env r.1 ps
      (rest.1, r.2.1 :: rest.2)

/-- The boolean Downloader.run returns to Crawler.download_lyrics: True
exactly on the fetched path (line 66 of the source), False on every other
path. -/
def run_returns_true : Outcome → Bool
  | Outcome.fetched => true
  | _ => false

/-- Crawler.success_count (lines 70, 85 and 86 of the source): the number
of evaluations whose run returned True. -/
def Crawler.success_count (env : Env) (s : DState) (files : List Str) : Nat :=
  (Crawler.crawl env s files).2.countP run_returns_true

/-- Downloader construction (lines 11 to 15 of the source) combined with
the ambient file-system state: the in-memory set is loaded from the current
ledger file, the blacklist is stored, and the ledger file content and the
existing lyrics files are as found on disk. -/
def initState (bl : List Str) (f : Option Str) (lrc : List Str) : DState :=
  ⟨loadLedgerFile f, bl, f, lrc⟩

/-- The number of newline-terminated lines of a file content. -/
def lineCount (c : Str) : Nat := c.count '\n'

/-- Content of a ledger file in the states this program itself produces:
empty, or ending in a newline character (every append writes a
newline-terminated chunk). -/
def NLTerminated (c : Str) : Prop := c = [] ∨ ∃ c', c = c' ++ ['\n']

/-- A ledger file state the program itself can produce: absent, or with
newline-terminated (possibly empty) content. -/
def WFLedger : Option Str → Prop
  | none => True
  | some c => NLTerminated c

/-- The gating disjunction that makes a file produce no fetch: unreadable
metadata, a ledger hit, a blacklisted genre, an existing lyrics file, or a
search miss. -/
def Gated (env : Env) (bl mem lrc : List Str) (p : Str) : Prop :=
  match env.meta p with
  | none => True
  | some tags =>
      mkKeywords tags ∈ mem ∨
      Downloader.check_for_blacklisted_genre bl tags = true ∨
      with_suffix_lrc p ∈ lrc ∨
      env.search (mkKeywords tags) = false

/-! ### Concrete sample data, used by witnesses and counterexamples -/

/-- A track with title t, artist a and no genre. -/
def sampleTags : Tags := ⟨some ("t".toList), some ("a".toList), none⟩

/-- A track whose genre contains a blacklisted word as a proper substring. -/
def rockTags : Tags := ⟨some ("t".toList), some ("a".toList), some ("Christian Rock".toList)⟩

/-- A track whose title contains an embedded newline character. -/
def nlTags : Tags := ⟨some ("a\nb".toList), some ("c".toList), none⟩

/-- Every file is an audio file with sampleTags; the search finds nothing. -/
def sampleEnvMiss : Env := ⟨fun _ => some sampleTags, fun _ => false⟩

/-- Every file is an audio file with sampleTags; the search succeeds. -/
def sampleEnvHit : Env := ⟨fun _ => some sampleTags, fun _ => true⟩

/-- Every file is an audio file with rockTags; the search succeeds. -/
def rockEnv : Env := ⟨fun _ => some rockTags, fun _ => true⟩

/-- Every file is an audio file with nlTags; the search finds nothing. -/
def nlEnv : Env := ⟨fun _ => some nlTags, fun _ => false⟩

/-- No file is a recognized audio container. -/
def noneEnv : Env := ⟨fun _ => none, fun _ => true⟩

/-- Empty blacklist, no ledger file, no lyrics file. -/
def emptyState : DState := ⟨[], [], none, []⟩

/-- The FetchKey of sampleTags is already in the loaded ledger. -/
def ledgerState : DState := ⟨[("t a".toList)], [], some ("t a\n".toList), []⟩

/-- A blacklist containing the word rock, lowercase. -/
def rockState : DState := ⟨[], [("rock".toList)], none, []⟩

/-- A lyrics file already exists next to the sample path. -/
def lrcState : DState := ⟨[], [], none, [("x.lrc".toList)]⟩

/-- The path evaluated in the concrete samples. -/
def samplePath : Str := "x.mp3".toList

/-! ### Lemmas about the newline split -/

theorem splitNL_ne_nil (l : Str) : splitNL l ≠ [] := by
  cases l with
  | nil => simp [splitNL]
  | cons c cs =>
      unfold splitNL
      split_ifs <;> simp

theorem splitNL_append_nl (a b : Str) :
    splitNL (a ++ '\n' :: b) = splitNL a ++ splitNL b := by
  induction a with
  | nil => simp [splitNL]
  | cons c cs ih =>
      by_cases hc : c = '\n'
      · subst hc
        simp [splitNL, ih]
      · obtain ⟨h, t, hht⟩ := List.exists_cons_of_ne_nil (splitNL_ne_nil cs)
        simp [splitNL, hc, ih, hht]

theorem splitNL_append_newline (a : Str) :
    splitNL (a ++ ['\n']) = splitNL a ++ [[]] := by
  simpa [splitNL] using splitNL_append_nl a []

theorem splitNL_no_newline (k : Str) (h : '\n' ∉ k) : splitNL k = [k] := by
  induction k with
  | nil => simp [splitNL]
  | cons c cs ih =>
      have hc : c ≠ '\n' := fun hc => h (hc ▸ List.mem_cons_self c cs)
      have hcs : '\n' ∉ cs := fun hm => h (List.mem_cons_of_mem _ hm)
      simp [splitNL, hc, ih hcs]

/-! ### Lemmas about the ledger file -/

theorem WFLedger_write (f : Option Str) (k : Str) :
    WFLedger (Downloader.write_unsuccessful_fetches_to_disk f k) := by
  unfold Downloader.write_unsuccessful_fetches_to_disk WFLedger NLTerminated
  exact Or.inr ⟨f.getD [] ++ k, by simp⟩

theorem mem_loadLedgerFile_write (f : Option Str) (k x : Str)
    (hwf : WFLedger f) (hx : x ∈ loadLedgerFile f) :
    x ∈ loadLedgerFile (Downloader.write_unsuccessful_fetches_to_disk f k) := by
  cases f with
  | none => simp [loadLedgerFile] at hx
  | some c =>
      have hnt : NLTerminated c := hwf
      rcases hnt with rfl | ⟨c', rfl⟩
      · have hx' : x = [] := by simpa [loadLedgerFile, splitNL] using hx
        simp only [loadLedgerFile, Downloader.write_unsuccessful_fetches_to_disk,
          Option.getD_some, List.nil_append]
        rw [splitNL_append_newline]
        simp [hx']
      · simp only [loadLedgerFile, splitNL_append_newline] at hx
        simp only [loadLedgerFile, Downloader.write_unsuccessful_fetches_to_disk,
          Option.getD_some]
        have harr : (c' ++ ['\n']) ++ k ++ ['\n'] = c' ++ '\n' :: (k ++ ['\n']) := by
          simp
        rw [harr, splitNL_append_nl, splitNL_append_newline]
        rcases List.mem_append.mp hx with h1 | h1
        · exact List.mem_append.mpr (Or.inl h1)
        · simp at h1
          simp [h1]

/-! ### Per-step lemmas about Downloader.run -/

theorem run_unsuccessful_eq (env : Env) (s : DState) (p : Str) :
    (Downloader.run env s p).1.unsuccessful_fetches = s.unsuccessful_fetches := by
  unfold Downloader.run
  cases env.meta p
  · rfl
  · dsimp only
    split_ifs <;> rfl

theorem run_blacklisted_eq (env : Env) (s : DState) (p : Str) :
    (Downloader.run env s p).1.blacklisted_genres = s.blacklisted_genres := by
  unfold Downloader.run
  cases env.meta p
  · rfl
  · dsimp only
    split_ifs <;> rfl

theorem run_lrc_mono (env : Env) (s : DState) (p x : Str) (hx : x ∈ s.lrcFiles) :
    x ∈ (Downloader.run env s p).1.lrcFiles := by
  unfold Downloader.run
  cases env.meta p
  · exact hx
  · dsimp only
    split_ifs <;> first
      | exact hx
      | exact List.mem_cons_of_mem _ hx

theorem run_ledger_cases (env : Env) (s : DState) (p : Str) :
    (Downloader.run env s p).1.ledgerFile = s.ledgerFile ∨
    ∃ k, (Downloader.run env s p).1.ledgerFile =
      Downloader.write_unsuccessful_fetches_to_disk s.ledgerFile k := by
  unfold Downloader.run
  cases env.meta p
  · exact Or.inl rfl
  · dsimp only
    split_ifs <;> first
      | exact Or.inl rfl
      | exact Or.inr ⟨_, rfl⟩

theorem run_ledger_WF (env : Env) (s : DState) (p : Str) (h : WFLedger s.ledgerFile) :
    WFLedger (Downloader.run env s p).1.ledgerFile := by
  rcases run_ledger_cases env s p with h1 | ⟨k, h1⟩ <;> rw [h1]
  · exact h
  · exact WFLedger_write _ _

theorem run_ledger_mem_mono (env : Env) (s : DState) (p : Str) (hwf : WFLedger s.ledgerFile)
    (x : Str) (hx : x ∈ loadLedgerFile s.ledgerFile) :
    x ∈ loadLedgerFile (Downloader.run env s p).1.ledgerFile := by
  rcases run_ledger_cases env s p with h1 | ⟨k, h1⟩ <;> rw [h1]
  · exact hx
  · exact mem_loadLedgerFile_write _ _ _ hwf hx

/-! ### Crawl-level invariants -/

theorem crawl_unsuccessful_eq (env : Env) (files : List Str) : ∀ s : DState,
    (Crawler.crawl env s files).1.unsuccessful_fetches = s.unsuccessful_fetches := by
  induction files with
  | nil => intro s; rfl
  | cons p ps ih =>
      intro s
      simp only [Crawler.crawl]
      rw [ih, run_unsuccessful_eq]

theorem crawl_blacklisted_eq (env : Env) (files : List Str) : ∀ s : DState,
    (Crawler.crawl env s files).1.blacklisted_genres = s.blacklisted_genres := by
  induction files with
  | nil => intro s; rfl
  | cons p ps ih =>
      intro s
      simp only [Crawler.crawl]
      rw [ih, run_blacklisted_eq]

theorem crawl_lrc_mono (env : Env) (files : List Str) : ∀ (s : DState) (x : Str),
    x ∈ s.lrcFiles → x ∈ (Crawler.crawl env s files).1.lrcFiles := by
  induction files with
  | nil => intro s x hx; exact hx
  | cons p ps ih =>
      intro s x hx
      simp only [Crawler.crawl]
      exact ih _ x (run_lrc_mono env s p x hx)

theorem crawl_ledger_WF (env : Env) (files : List Str) : ∀ s : DState,
    WFLedger s.ledgerFile → WFLedger (Crawler.crawl env s files).1.ledgerFile := by
  induction files with
  | nil => intro s h; exact h
  | cons p ps ih =>
      intro s h
      simp only [Crawler.crawl]
      exact ih _ (run_ledger_WF env s p h)

theorem crawl_ledger_mem_mono (env : Env) (files : List Str) : ∀ (s : DState),
    WFLedger s.ledgerFile → ∀ x : Str, x ∈ loadLedgerFile s.ledgerFile →
    x ∈ loadLedgerFile (Crawler.crawl env s files).1.ledgerFile := by
  induction files with
  | nil => intro s _ x hx; exact hx
  | cons p ps ih =>
      intro s hwf x hx
      simp only [Crawler.crawl]
      exact ih _ (run_ledger_WF env s p hwf) x (run_ledger_mem_mono env s p hwf x hx)

/-! ### The gating disjunction -/

theorem Gated_mono (env : Env) (bl mem lrc mem' lrc' : List Str) (p : Str)
    (hm : ∀ x ∈ mem, x ∈ mem') (hl : ∀ x ∈ lrc, x ∈ lrc')
    (hg : Gated env bl mem lrc p) : Gated env bl mem' lrc' p := by
  unfold Gated at *
  cases h : env.meta p with
  | none => trivial
  | some tags =>
      rw [h] at hg
      dsimp only at hg ⊢
      rcases hg with h | h | h | h
      · exact Or.inl (hm _ h)
      · exact Or.inr (Or.inl h)
      · exact Or.inr (Or.inr (Or.inl (hl _ h)))
      · exact Or.inr (Or.inr (Or.inr h))

theorem run_gated (env : Env) (s : DState) (p : Str)
    (hsub : ∀ x ∈ s.unsuccessful_fetches, x ∈ loadLedgerFile s.ledgerFile) :
    Gated env s.blacklisted_genres
      (loadLedgerFile (Downloader.run env s p).1.ledgerFile)
      (Downloader.run env s p).1.lrcFiles p := by
  unfold Downloader.run Gated
  cases h : env.meta p with
  | none => trivial
  | some tags =>
      dsimp only
      split_ifs with h1 h2 h3 h4
      · exact Or.inl (hsub _ (of_decide_eq_true h1))
      · exact Or.inr (Or.inl h2)
      · exact Or.inr (Or.inr (Or.inl h3))
      · exact Or.inr (Or.inr (Or.inl (List.mem_cons_self _ _)))
      · exact Or.inr (Or.inr (Or.inr (by simpa using h4)))

theorem crawl_gated (env : Env) (files : List Str) : ∀ s : DState,
    WFLedger s.ledgerFile →
    (∀ x ∈ s.unsuccessful_fetches, x ∈ loadLedgerFile s.ledgerFile) →
    ∀ p ∈ files,
      Gated env s.blacklisted_genres
        (loadLedgerFile (Crawler.crawl env s files).1.ledgerFile)
        (Crawler.crawl env s files).1.lrcFiles p := by
  induction files with
  | nil => intro s _ _ p hp; cases hp
  | cons q qs ih =>
      intro s hwf hsub p hp
      simp only [Crawler.crawl]
      have hwf' := run_ledger_WF env s q hwf
      have hsub' : ∀ x ∈ (Downloader.run env s q).1.unsuccessful_fetches,
          x ∈ loadLedgerFile (Downloader.run env s q).1.ledgerFile := by
        intro x hx
        rw [run_unsuccessful_eq] at hx
        exact run_ledger_mem_mono env s q hwf x (hsub x hx)
      rcases List.mem_cons.mp hp with rfl | hp'
      · exact Gated_mono env s.blacklisted_genres
          (loadLedgerFile (Downloader.run env s p).1.ledgerFile)
          (Downloader.run env s p).1.lrcFiles _ _ p
          (crawl_ledger_mem_mono env qs _ hwf')
          (fun x hx => crawl_lrc_mono env qs _ x hx)
          (run_gated env s p hsub)
      · have := ih (Downloader.run env s q).1 hwf' hsub' p hp'
        rwa [run_blacklisted_eq] at this

theorem run_not_fetched (env : Env) (s : DState) (p : Str) (lrc0 : List Str)
    (hl : ∀ x ∈ lrc0, x ∈ s.lrcFiles)
    (hg : Gated env s.blacklisted_genres s.unsuccessful_fetches lrc0 p) :
    (Downloader.run env s p).2.1 ≠ Outcome.fetched := by
  unfold Downloader.run Gated at *
  cases h : env.meta p with
  | none => simp
  | some tags =>
      rw [h] at hg
      dsimp only at hg ⊢
      split_ifs with h1 h2 h3 h4 <;> try simp
      rcases hg with hx | hx | hx | hx
      · exact absurd (decide_eq_true hx) h1
      · exact absurd hx h2
      · exact absurd (hl _ hx) h3
      · rw [h4] at hx; cases hx

theorem crawl_no_fetched (env : Env) (files : List Str) : ∀ (s : DState) (lrc0 : List Str),
    (∀ x ∈ lrc0, x ∈ s.lrcFiles) →
    (∀ p ∈ files, Gated env s.blacklisted_genres s.unsuccessful_fetches lrc0 p) →
    ∀ o ∈ (Crawler.crawl env s files).2, o ≠ Outcome.fetched := by
  induction files with
  | nil =>
      intro s lrc0 _ _ o ho
      simp only [Crawler.crawl, List.not_mem_nil] at ho
  | cons q qs ih =>
      intro s lrc0 hl hg o ho
      simp only [Crawler.crawl] at ho
      rcases List.mem_cons.mp ho with rfl | ho'
      · exact run_not_fetched env s q lrc0 hl (hg q (List.mem_cons_self _ _))
      · refine ih (Downloader.run env s q).1 lrc0 ?_ ?_ o ho'
        · intro x hx
          exact run_lrc_mono env s q x (hl x hx)
        · intro p hp
          rw [run_blacklisted_eq, run_unsuccessful_eq]
          exact hg p (List.mem_cons_of_mem _ hp)

/-! ### Claims -/

/-- C3: idempotence of a full crawl.  For every directory tree (modelled by
the list of files the traversal yields), every blacklist, every initial set
of existing lyrics files and every initial ledger file in a state the
program itself produces (absent, or newline-terminated), running the
orchestrator to completion and then a second time over the unchanged tree —
with the ledger file produced by the first run, the lyrics files it wrote,
and the same deterministic search collaborator — yields zero fetched
outcomes on the second run. -/
theorem C3_crawl_idempotent (env : Env) (bl : List Str) (F0 : Option Str) (L0 : List Str)
    (files : List Str) (hwf : WFLedger F0) :
    ((Crawler.crawl env
        (initState bl (Crawler.crawl env (initState bl F0 L0) files).1.ledgerFile
          (Crawler.crawl env (initState bl F0 L0) files).1.lrcFiles) files).2).countP
      (fun o => decide (o = Outcome.fetched)) = 0 := by
  have hg := crawl_gated env files (initState bl F0 L0) hwf (fun x hx => hx)
  have hnf := crawl_no_fetched env files
    (initState bl (Crawler.crawl env (initState bl F0 L0) files).1.ledgerFile
      (Crawler.crawl env (initState bl F0 L0) files).1.lrcFiles)
    (Crawler.crawl env (initState bl F0 L0) files).1.lrcFiles
    (fun x hx => hx) hg
  rw [List.countP_eq_zero]
  intro o ho
  simpa using hnf o ho

/-- Witness for C3: one audio file, empty blacklist, no prior ledger file,
a search that succeeds; the first run fetches and the second fetches
nothing. -/
theorem C3_crawl_idempotent_witness :
    WFLedger (none : Option Str) ∧
    ((Crawler.crawl sampleEnvHit
        (initState [] (Crawler.crawl sampleEnvHit (initState [] none []) [samplePath]).1.ledgerFile
          (Crawler.crawl sampleEnvHit (initState [] none []) [samplePath]).1.lrcFiles)
        [samplePath]).2).countP (fun o => decide (o = Outcome.fetched)) = 0 :=
  ⟨trivial, C3_crawl_idempotent sampleEnvHit [] none [] [samplePath] trivial⟩

/-- C5: a track whose FetchKey is in the FailureLedger loaded at
construction is skipped as a known failure: the search collaborator is not
invoked (third component false) and the whole state — in-memory set, ledger
file and lyrics files — is returned unchanged.  No hypothesis about the
blacklist or about an existing lyrics file is needed: the ledger membership
check is the first gate of the short-circuit order. -/
theorem C5_known_failure_gate (env : Env) (s : DState) (p : Str) (tags : Tags)
    (hm : env.meta p = some tags) (hk : mkKeywords tags ∈ s.unsuccessful_fetches) :
    Downloader.run env s p = (s, Outcome.skippedKnownFailure, false) := by
  unfold Downloader.run
  rw [hm]
  dsimp only
  simp [Downloader.check_for_existing, hk]

/-- Witness for C5: the key of sampleTags is in the loaded set; evaluation
skips it, leaving the state unchanged, even though the search would have
succeeded. -/
theorem C5_known_failure_gate_witness :
    Downloader.run sampleEnvHit ledgerState samplePath =
      (ledgerState, Outcome.skippedKnownFailure, false) :=
  C5_known_failure_gate sampleEnvHit ledgerState samplePath sampleTags rfl (by decide)

/-- C7: when a lyrics file already exists at the track's path with the
extension swapped to the fixed lyrics suffix — and the earlier gates of the
short-circuit order did not fire — evaluation returns the already-has-lyrics
skip without invoking the search collaborator (third component false) and
without any ledger mutation (the state is returned unchanged). -/
theorem C7_existing_lyrics_gate (env : Env) (s : DState) (p : Str) (tags : Tags)
    (hm : env.meta p = some tags)
    (hk : mkKeywords tags ∉ s.unsuccessful_fetches)
    (hb : Downloader.check_for_blacklisted_genre s.blacklisted_genres tags = false)
    (hl : with_suffix_lrc p ∈ s.lrcFiles) :
    Downloader.run env s p = (s, Outcome.skippedHasLyrics, false) := by
  unfold Downloader.run
  rw [hm]
  dsimp only
  have h1 : Downloader.check_for_existing s (mkKeywords tags) = false := by
    simp [Downloader.check_for_existing, hk]
  simp [h1, hb, hl]

/-- Witness for C7: a lyrics file exists for the sample path; evaluation
skips without a search call even though the search would have succeeded. -/
theorem C7_existing_lyrics_gate_witness :
    Downloader.run sampleEnvHit lrcState samplePath =
      (lrcState, Outcome.skippedHasLyrics, false) :=
  C7_existing_lyrics_gate sampleEnvHit lrcState samplePath sampleTags rfl
    (by decide) (by decide) (by decide)

theorem check_bl_some_iff (bl : List Str) (tags : Tags) (g : Str)
    (hg : tags.genre = some g) :
    Downloader.check_for_blacklisted_genre bl tags = true ↔
      ∃ b ∈ bl, b.map Char.toLower <:+: g.map Char.toLower := by
  unfold Downloader.check_for_blacklisted_genre
  rw [List.any_eq_true]
  constructor
  · rintro ⟨b, hb, hbt⟩
    rw [hg] at hbt
    exact ⟨b, hb, of_decide_eq_true hbt⟩
  · rintro ⟨b, hb, hbt⟩
    refine ⟨b, hb, ?_⟩
    rw [hg]
    exact decide_eq_true hbt

theorem check_bl_none (bl : List Str) (tags : Tags) (hg : tags.genre = none) :
    Downloader.check_for_blacklisted_genre bl tags = false := by
  simp [Downloader.check_for_blacklisted_genre, hg]

/-- C6: for a track with a genre that reaches the blacklist gate (the
known-failure gate did not fire), evaluation yields the blacklisted-genre
skip exactly when some blacklist entry, lowercased, occurs as a substring
of the lowercased genre; and for a track with no genre the
blacklisted-genre skip never occurs, whatever the blacklist contains. -/
theorem C6_blacklist_gate (env : Env) (s : DState) (p : Str) (tags : Tags)
    (hm : env.meta p = some tags)
    (hk : mkKeywords tags ∉ s.unsuccessful_fetches) :
    (∀ g, tags.genre = some g →
      ((Downloader.run env s p).2.1 = Outcome.skippedBlacklisted ↔
        ∃ b ∈ s.blacklisted_genres, b.map Char.toLower <:+: g.map Char.toLower)) ∧
    (tags.genre = none → (Downloader.run env s p).2.1 ≠ Outcome.skippedBlacklisted) := by
  have h1 : Downloader.check_for_existing s (mkKeywords tags) = false := by
    simp [Downloader.check_for_existing, hk]
  constructor
  · intro g hg
    rw [← check_bl_some_iff s.blacklisted_genres tags g hg]
    unfold Downloader.run
    rw [hm]
    dsimp only
    simp only [h1, Bool.false_eq_true, if_false]
    by_cases hb : Downloader.check_for_blacklisted_genre s.blacklisted_genres tags = true
    · simp [hb]
    · simp only [hb, if_false]
      split_ifs <;> simp_all
  · intro hg
    have hb := check_bl_none s.blacklisted_genres tags hg
    unfold Downloader.run
    rw [hm]
    dsimp only
    simp only [h1, hb, Bool.false_eq_true, if_false]
    split_ifs <;> simp

/-- Witness for C6: genre Christian Rock is skipped for the blacklist entry
rock, a case-insensitive proper-substring match. -/
theorem C6_blacklist_gate_witness :
    (Downloader.run rockEnv rockState samplePath).2.1 = Outcome.skippedBlacklisted :=
  ((C6_blacklist_gate rockEnv rockState samplePath rockTags rfl (by decide)).1
      ("Christian Rock".toList) rfl).mpr
    ⟨("rock".toList), by decide, by decide⟩

theorem crawl_skip_irrelevant (env : Env) (p : Str) (hm : env.meta p = none) :
    ∀ (pre : List Str) (s : DState) (post : List Str),
      (Crawler.crawl env s (pre ++ p :: post)).2.countP run_returns_true =
      (Crawler.crawl env s (pre ++ post)).2.countP run_returns_true := by
  intro pre
  induction pre with
  | nil =>
      intro s post
      have hr : Downloader.run env s p = (s, Outcome.skippedNotAudio, false) := by
        unfold Downloader.run
        rw [hm]
      simp only [List.nil_append, Crawler.crawl, hr]
      simp [run_returns_true]
  | cons q qs ih =>
      intro s post
      simp only [List.cons_append, Crawler.crawl, List.countP_cons, List.append_eq]
      rw [ih]

/-- C8: a file the metadata collaborator rejects (TinyTagException) is
skipped as not-audio from any state: the state is unchanged (no key is
constructed, no ledger access or mutation happens), the search collaborator
is not invoked (third component false), and the file contributes nothing to
the success count wherever it occurs in the traversal. -/
theorem C8_not_audio (env : Env) (p : Str) (hm : env.meta p = none) :
    (∀ s : DState, Downloader.run env s p = (s, Outcome.skippedNotAudio, false)) ∧
    (∀ (s : DState) (pre post : List Str),
      Crawler.success_count env s (pre ++ p :: post) =
        Crawler.success_count env s (pre ++ post)) := by
  constructor
  · intro s
    unfold Downloader.run
    rw [hm]
  · intro s pre post
    exact crawl_skip_irrelevant env p hm pre s post

/-- Witness for C8: a text file in a one-file tree is skipped and the
success count is that of the empty tree. -/
theorem C8_not_audio_witness :
    Downloader.run noneEnv emptyState ("notes.txt".toList) =
      (emptyState, Outcome.skippedNotAudio, false) ∧
    Crawler.success_count noneEnv emptyState [("notes.txt".toList)] =
      Crawler.success_count noneEnv emptyState [] :=
  ⟨(C8_not_audio noneEnv ("notes.txt".toList) rfl).1 emptyState,
   (C8_not_audio noneEnv ("notes.txt".toList) rfl).2 emptyState [] []⟩

/-- Counterexample to C1 as stated: at a concrete track whose search finds
nothing, the FetchKey is flushed to disk (it is a line of the ledger file)
but the in-memory set does not contain it, so the in-memory set is not a
superset of the lines flushed during the process. -/
theorem C1_counterexample :
    (Downloader.run sampleEnvMiss emptyState samplePath).2.1 = Outcome.notFound ∧
    ("t a".toList) ∈
      loadLedgerFile (Downloader.run sampleEnvMiss emptyState samplePath).1.ledgerFile ∧
    ("t a".toList) ∉
      (Downloader.run sampleEnvMiss emptyState samplePath).1.unsuccessful_fetches := by
  decide

/-- C1 amended: on a provider miss the orchestrator appends the FetchKey
only to the on-disk ledger file; the in-memory set is never modified by an
evaluation, so it stays at whatever was loaded at construction. -/
theorem C1_disk_only_append (env : Env) (s : DState) (p : Str) :
    (Downloader.run env s p).1.unsuccessful_fetches = s.unsuccessful_fetches ∧
    (∀ tags, env.meta p = some tags → (Downloader.run env s p).2.1 = Outcome.notFound →
      (Downloader.run env s p).1.ledgerFile =
        Downloader.write_unsuccessful_fetches_to_disk s.ledgerFile (mkKeywords tags)) := by
  refine ⟨run_unsuccessful_eq env s p, ?_⟩
  intro tags hm ho
  unfold Downloader.run at ho ⊢
  rw [hm] at ho ⊢
  dsimp only at ho ⊢
  split_ifs at ho ⊢
  rfl

/-- Witness for the amended C1 at the concrete provider-miss track. -/
theorem C1_disk_only_append_witness :
    (Downloader.run sampleEnvMiss emptyState samplePath).1.unsuccessful_fetches =
      emptyState.unsuccessful_fetches ∧
    (Downloader.run sampleEnvMiss emptyState samplePath).1.ledgerFile =
      Downloader.write_unsuccessful_fetches_to_disk emptyState.ledgerFile
        (mkKeywords sampleTags) :=
  ⟨(C1_disk_only_append sampleEnvMiss emptyState samplePath).1,
   (C1_disk_only_append sampleEnvMiss emptyState samplePath).2 sampleTags rfl (by decide)⟩

/-- Counterexample to C2 as stated: for a track with title t and no artist
the FetchKey is t, a space, and the word None (Python renders None that
way in an f-string), not t followed by a single trailing space. -/
theorem C2_counterexample :
    mkKeywords ⟨some ("t".toList), none, none⟩ = ("t None".toList) ∧
    mkKeywords ⟨some ("t".toList), none, none⟩ ≠ ("t ".toList) := by
  decide

/-- C2 amended: the FetchKey is the title, a single space and the artist
when both are present; an absent artist contributes the word None (the
f-string rendering of Python None), not the empty string. -/
theorem C2_fetchkey_format (t a : Str) (g g' : Option Str) :
    mkKeywords ⟨some t, some a, g⟩ = t ++ ' ' :: a ∧
    mkKeywords ⟨some t, none, g'⟩ = t ++ ' ' :: ("None".toList) :=
  ⟨rfl, rfl⟩

theorem lineCount_append (x y : Str) : lineCount (x ++ y) = lineCount x + lineCount y := by
  unfold lineCount
  exact List.count_append '\n' x y

theorem lineCount_write (f : Option Str) (k : Str) :
    lineCount ((Downloader.write_unsuccessful_fetches_to_disk f k).getD []) =
      lineCount (f.getD []) + lineCount k + 1 := by
  unfold Downloader.write_unsuccessful_fetches_to_disk
  rw [Option.getD_some, lineCount_append, lineCount_append]
  have h1 : lineCount ['\n'] = 1 := by decide
  omega

theorem run_lineCount_mono (env : Env) (s : DState) (p : Str) :
    lineCount (s.ledgerFile.getD []) ≤
      lineCount ((Downloader.run env s p).1.ledgerFile.getD []) := by
  rcases run_ledger_cases env s p with h | ⟨k, h⟩
  · simp [h]
  · rw [h, lineCount_write]
    omega

theorem crawl_lineCount_mono (env : Env) (files : List Str) : ∀ s : DState,
    lineCount (s.ledgerFile.getD []) ≤
      lineCount ((Crawler.crawl env s files).1.ledgerFile.getD []) := by
  induction files with
  | nil => intro s; exact le_refl _
  | cons p ps ih =>
      intro s
      simp only [Crawler.crawl]
      exact le_trans (run_lineCount_mono env s p) (ih _)

/-- Counterexample to C4 as stated: a provider miss for a track whose title
contains an embedded newline appends two lines to the ledger file, not
exactly one line whose content is the FetchKey. -/
theorem C4_counterexample :
    (Downloader.run nlEnv emptyState samplePath).2.1 = Outcome.notFound ∧
    lineCount ((Downloader.run nlEnv emptyState samplePath).1.ledgerFile.getD []) =
      lineCount (emptyState.ledgerFile.getD []) + 2 := by
  decide

/-- C4 amended: across an evaluation (and across a whole crawl) the ledger
file's line count never decreases; a provider miss appends exactly the
FetchKey followed by one newline to the file content — which is exactly one
newline-terminated line with the FetchKey as content when the FetchKey
contains no newline character — and every other outcome leaves the ledger
file untouched. -/
theorem C4_ledger_monotone (env : Env) (s : DState) (p : Str) :
    lineCount (s.ledgerFile.getD []) ≤
      lineCount ((Downloader.run env s p).1.ledgerFile.getD []) ∧
    ((Downloader.run env s p).2.1 ≠ Outcome.notFound →
      (Downloader.run env s p).1.ledgerFile = s.ledgerFile) ∧
    (∀ tags, env.meta p = some tags → (Downloader.run env s p).2.1 = Outcome.notFound →
      (Downloader.run env s p).1.ledgerFile.getD [] =
        s.ledgerFile.getD [] ++ (mkKeywords tags ++ ['\n']) ∧
      ('\n' ∉ mkKeywords tags →
        lineCount ((Downloader.run env s p).1.ledgerFile.getD []) =
          lineCount (s.ledgerFile.getD []) + 1)) ∧
    (∀ files, lineCount (s.ledgerFile.getD []) ≤
      lineCount ((Crawler.crawl env s files).1.ledgerFile.getD [])) := by
  refine ⟨run_lineCount_mono env s p, ?_, ?_, fun files => crawl_lineCount_mono env files s⟩
  · intro ho
    unfold Downloader.run at ho ⊢
    cases hm : env.meta p
    · rfl
    · rw [hm] at ho
      dsimp only at ho ⊢
      split_ifs at ho ⊢ <;> first | rfl | exact absurd rfl ho
  · intro tags hm ho
    unfold Downloader.run at ho ⊢
    rw [hm] at ho ⊢
    dsimp only at ho ⊢
    split_ifs at ho ⊢
    constructor
    · show (Downloader.write_unsuccessful_fetches_to_disk s.ledgerFile
          (mkKeywords tags)).getD [] =
        s.ledgerFile.getD [] ++ (mkKeywords tags ++ ['\n'])
      unfold Downloader.write_unsuccessful_fetches_to_disk
      rw [Option.getD_some, List.append_assoc]
    · intro hnl
      have h0 : lineCount (mkKeywords tags) = 0 := List.count_eq_zero.mpr hnl
      show lineCount ((Downloader.write_unsuccessful_fetches_to_disk s.ledgerFile
          (mkKeywords tags)).getD []) = lineCount (s.ledgerFile.getD []) + 1
      rw [lineCount_write]
      omega

/-- Witness for the amended C4: a concrete provider miss appends exactly
the key followed by one newline, one line. -/
theorem C4_ledger_monotone_witness :
    (Downloader.run sampleEnvMiss emptyState samplePath).1.ledgerFile.getD [] =
      emptyState.ledgerFile.getD [] ++ (mkKeywords sampleTags ++ ['\n']) ∧
    lineCount ((Downloader.run sampleEnvMiss emptyState samplePath).1.ledgerFile.getD []) =
      lineCount (emptyState.ledgerFile.getD []) + 1 := by
  have h := (C4_ledger_monotone sampleEnvMiss emptyState samplePath).2.2.1 sampleTags rfl
    (by decide)
  exact ⟨h.1, h.2 (by decide)⟩

/-- Counterexample to C9 as stated: an I/O failure that is not a missing
file is not caught — the exception propagates out of construction (the
model value none) instead of yielding an empty ledger; only
FileNotFoundError produces the empty collection. -/
theorem C9_counterexample :
    Downloader.load_unsuccessful_fetches ReadResult.ioError = none ∧
    Downloader.load_unsuccessful_fetches ReadResult.fileNotFound = some [] :=
  ⟨rfl, rfl⟩

/-- C9 amended: when the ledger file is missing, construction succeeds with
an empty FailureLedger, and with that empty set no track is ever gated as a
known failure. -/
theorem C9_missing_file_empty (env : Env) (bl L : List Str) (p : Str) (tags : Tags)
    (hm : env.meta p = some tags) :
    Downloader.load_unsuccessful_fetches ReadResult.fileNotFound = some [] ∧
    (Downloader.run env
        ⟨(Downloader.load_unsuccessful_fetches ReadResult.fileNotFound).getD [], bl, none, L⟩
        p).2.1 ≠ Outcome.skippedKnownFailure := by
  refine ⟨rfl, ?_⟩
  unfold Downloader.run
  rw [hm]
  dsimp only
  split_ifs with h1 h2 h3 h4
  · exact absurd h1
      (by simp [Downloader.check_for_existing, Downloader.load_unsuccessful_fetches])
  · simp
  · simp
  · simp
  · simp

/-- Witness for the amended C9 at a concrete track evaluated against the
empty ledger obtained from a missing file. -/
theorem C9_missing_file_empty_witness :
    (Downloader.run sampleEnvHit
        ⟨(Downloader.load_unsuccessful_fetches ReadResult.fileNotFound).getD [], [], none, []⟩
        samplePath).2.1 ≠ Outcome.skippedKnownFailure :=
  (C9_missing_file_empty sampleEnvHit [] [] samplePath sampleTags rfl).2

theorem mem_key_splitNL_append (c k : Str) (hc : NLTerminated c) (hk : '\n' ∉ k) :
    k ∈ splitNL ((c ++ k) ++ ['\n']) := by
  rw [splitNL_append_newline]
  rcases hc with rfl | ⟨c', rfl⟩
  · rw [List.nil_append, splitNL_no_newline k hk]
    simp
  · have harr : (c' ++ ['\n']) ++ k = c' ++ '\n' :: k := by simp
    rw [harr, splitNL_append_nl, splitNL_no_newline k hk]
    simp

/-- C10: round-trip of the ledger persistence.  Appending a newline-free
FetchKey to a ledger file in a state the appends themselves produce
(absent, empty or newline-terminated) and loading the file back yields a
set containing that key; and the loaded set of such an appended file always
also contains the empty string, the segment after the final newline. -/
theorem C10_roundtrip (f : Option Str) (k : Str) (hwf : WFLedger f) (hk : '\n' ∉ k) :
    k ∈ loadLedgerFile (Downloader.write_unsuccessful_fetches_to_disk f k) ∧
    [] ∈ loadLedgerFile (Downloader.write_unsuccessful_fetches_to_disk f k) := by
  constructor
  · cases f with
    | none => exact mem_key_splitNL_append [] k (Or.inl rfl) hk
    | some c => exact mem_key_splitNL_append c k hwf hk
  · show [] ∈ splitNL ((f.getD [] ++ k) ++ ['\n'])
    rw [splitNL_append_newline]
    simp

/-- Witness for C10: appending the key to an absent ledger file and loading
it back yields both the key and the empty string. -/
theorem C10_roundtrip_witness :
    ("t a".toList) ∈
      loadLedgerFile (Downloader.write_unsuccessful_fetches_to_disk none ("t a".toList)) ∧
    [] ∈ loadLedgerFile (Downloader.write_unsuccessful_fetches_to_disk none ("t a".toList)) :=
  ⟨(C10_roundtrip none ("t a".toList) trivial (by decide)).1,
   (C10_roundtrip none ("t a".toList) trivial (by decide)).2⟩
